import Mathlib

/-!
Verification of the LAPSGD training coordinator (src/train/LAPSGD.py).

This file gives a shallow embedding of the coordination and update logic of
the repository and proves the specification's claims about it:

* `opt.step` (lines 55-84): the local momentum/Nesterov SGD update, embedded
  over rationals, one slot per parameter, with the momentum buffer stored as
  an `Option` (absent until lazily created) and the caller's gradient list
  returned to expose the in-place weight-decay mutation.
* `train_epoch` (lines 124-190): the post-accumulation counter section, the
  gradient-accumulation loop, and the micro-batch loss scaling.
* `test_train` (lines 111-114): the atomic `epoch_counter` fetch-and-increment.
* `average` (lines 26-53): the coordinator cycle's termination test and the
  adaptive averaging-frequency policy, simulated for two ranks in lockstep
  through the paired `all_reduce` calls.
* `run` (lines 193-237): the startup sequence, as the list of actions it
  performs.

Python's arbitrary-precision / machine arithmetic on the counters is modelled
with `ℤ`/`ℕ` (the counts in any run stay far below the 32-bit bound of
`mp.Value('i')`), and tensor scalars with `ℚ`.
-/

namespace LAPSGD

/-! ## The local optimizer `opt` (LAPSGD.py lines 55-84)

A parameter slot is a pair of the parameter value `p` and its momentum
buffer (`none` until `state[p]['momentum_buffer']` is created).  `opt.step`
iterates `zip(self.parameters, grad)`; for each slot it may mutate the
caller's gradient tensor in place (`d_p.add_(p.data, alpha=weight_decay)`),
so the embedding returns the gradient list as seen by the caller after the
call, alongside the updated slots. -/

structure OptCfg where
  lr : ℚ
  momentum : ℚ
  weight_decay : ℚ
  nesterov : Bool
  deriving DecidableEq, Repr

/-- One iteration of the loop body of `opt.step` for a slot `(p, buf)` and
gradient entry `d_p`.  Returns the new `(p, buf)` and the value the caller's
gradient tensor holds after the iteration (`d_p.add_` is in place; the
Nesterov `d_p.add(buf, alpha=momentum)` and `torch.clone` are not). -/
def stepSlot (cfg : OptCfg) (p : ℚ) (buf : Option ℚ) : Option ℚ → (ℚ × Option ℚ) × Option ℚ
  | none => ((p, buf), none)
  | some g =>
    let d₁ := if cfg.weight_decay ≠ 0 then g + cfg.weight_decay * p else g
    if cfg.momentum ≠ 0 then
      let b := match buf with
        | none => d₁
        | some b₀ => cfg.momentum * b₀ + d₁
      let dir := if cfg.nesterov then d₁ + cfg.momentum * b else b
      ((p - cfg.lr * dir, some b), some d₁)
    else
      ((p - cfg.lr * d₁, buf), some d₁)

/-- `opt.step(grad)`: fold `stepSlot` over `zip(self.parameters, grad)`.
Python's `zip` stops at the shorter sequence, so surplus slots or gradient
entries pass through untouched.  Returns (updated slots, caller's gradient
list after the call). -/
def optStep (cfg : OptCfg) : List (ℚ × Option ℚ) → List (Option ℚ) →
    List (ℚ × Option ℚ) × List (Option ℚ)
  | ps, [] => (ps, [])
  | [], gs => ([], gs)
  | s :: ps, g :: gs =>
    let r := stepSlot cfg s.1 s.2 g
    let rest := optStep cfg ps gs
    (r.1 :: rest.1, r.2 :: rest.2)

/-- The update direction as §4.1 of the spec words it: weight decay first,
then the momentum buffer (first use `b ← g`, later `b ← momentum*b + g`),
direction `g + momentum*b` under Nesterov and `b` otherwise.  Written from
the spec's sentences, to be compared with `stepSlot`. -/
def specDirection (cfg : OptCfg) (p g : ℚ) (buf : Option ℚ) : ℚ :=
  let g' := if cfg.weight_decay ≠ 0 then g + cfg.weight_decay * p else g
  if cfg.momentum ≠ 0 then
    let b := match buf with
      | none => g'
      | some b₀ => cfg.momentum * b₀ + g'
    if cfg.nesterov then g' + cfg.momentum * b else b
  else g'

/-- The new momentum buffer as the spec words it. -/
def specBuffer (cfg : OptCfg) (p g : ℚ) (buf : Option ℚ) : Option ℚ :=
  if cfg.momentum ≠ 0 then
    let g' := if cfg.weight_decay ≠ 0 then g + cfg.weight_decay * p else g
    some (match buf with
      | none => g'
      | some b₀ => cfg.momentum * b₀ + g')
  else buf

/-! ## The shared progress counters and the post-accumulation section
(LAPSGD.py lines 162-173)

`minibatch_counter` and `last_tested_at` are `mp.Value('i', 0)` cells, each
behind its own lock.  The post-accumulation block of `train_epoch` holds the
`minibatch_counter` lock for the whole read / test / increment sequence (with
the `last_tested_at` lock nested inside), so it is one atomic action on the
pair; the scheduler and optimizer calls follow outside the locks. -/

structure Counters where
  mb : ℤ
  lta : ℤ
  deriving DecidableEq, Repr

/-- The observable operations of one `train_epoch` step after gradient
accumulation, in program order. -/
inductive WEv
  | readMB
  | setLTA
  | incMB
  | schedStep
  | optStep
  deriving DecidableEq, Repr

/-- The post-accumulation section of `train_epoch` (lines 162-173): read
`minibatches`, decide `do_test` by `minibatches - last_tested_at ≥ thresh`
(where `thresh = test_freq * trainloaderlength`), set `last_tested_at` on
success, increment `minibatch_counter`, then call `scheduler.step` and
`optimizer.step`.  Returns the new counters, `do_test`, and the emitted
event trace. -/
def workerPostAccum (thresh : ℤ) (s : Counters) : Counters × Bool × List WEv :=
  let minibatches := s.mb
  let doTest : Bool := decide (thresh ≤ minibatches - s.lta)
  let lta' := if doTest then minibatches else s.lta
  (⟨minibatches + 1, lta'⟩, doTest,
    [WEv.readMB] ++ (if doTest then [WEv.setLTA] else []) ++
      [WEv.incMB, WEv.schedStep, WEv.optStep])

/-- The counter effect of one worker step, as used when iterating executions:
every worker runs the same locked block on the same shared pair. -/
def countersStep (thresh : ℤ) (s : Counters) : Counters :=
  (workerPostAccum thresh s).1

/-- The counter state after `n` worker steps (in any interleaving: the locked
block is atomic and identical across workers, so an execution is determined
by the number of completed steps) from the initial `mp.Value('i', 0)` pair. -/
def countersTrace (thresh : ℤ) (n : ℕ) : Counters :=
  (countersStep thresh)^[n] ⟨0, 0⟩

/-! ## Epoch assignment (LAPSGD.py lines 111-114)

Each worker claims a sampling epoch by the locked fetch-and-increment of
`epoch_counter`.  An execution is a schedule: the list of worker ids in the
order their (atomic) claim blocks run.  The claim block does not depend on
the worker id, only on the shared cursor. -/

/-- Run the claims of a schedule starting from cursor value `c`; returns the
list of claimed epoch indices in execution order. -/
def runClaims : List ℕ → ℕ → List ℕ
  | [], _ => []
  | _ :: sched, c => c :: runClaims sched (c + 1)

/-! ## Gradient accumulation and loss scaling (LAPSGD.py lines 140-160)

`train_epoch` splits a batch of `n` inputs into micro-batches of
`train_processing_bs` and sums gradients across them.  The loss of a
micro-batch is divided by `math.ceil(n / bs)` when `len(inputs) !=
train_processing_bs`; since `torch.autograd.grad` is linear in a scalar
rescaling of the loss, a micro-batch whose unscaled-loss gradient is `g`
contributes `lossScale n bs * g`. -/

/-- `math.ceil(float(n) / bs)`: the number of micro-batches of a batch of
`n` inputs (for `bs > 0` this is `range(0, n, bs)`'s length). -/
def microBatchCount (n bs : ℕ) : ℕ := (n + bs - 1) / bs

/-- The factor each micro-batch loss (hence its gradient) is scaled by:
`1 / microBatchCount n bs` exactly when `n ≠ bs`, else `1` (lines 151-153). -/
def lossScale (n bs : ℕ) : ℚ :=
  if n ≠ bs then 1 / (microBatchCount n bs : ℚ) else 1

/-- The scaling factor as the spec words it: divide "when the batch does not
divide evenly" into micro-batches.  Written from the spec's sentence, to be
compared with `lossScale`. -/
def specLossScale (n bs : ℕ) : ℚ :=
  if ¬ bs ∣ n then 1 / (microBatchCount n bs : ℚ) else 1

/-- The accumulation loop (lines 139, 156-160): `gr` starts as `None`; the
first micro-batch gradient is assigned, later ones are added in place. -/
def accumulate : Option ℚ → List ℚ → Option ℚ
  | gr, [] => gr
  | none, g :: gs => accumulate (some g) gs
  | some a, g :: gs => accumulate (some (a + g)) gs

/-- The gradient handed to `optimizer.step` for a batch of `n` inputs whose
micro-batches have unscaled-loss gradients `gs` (one rational per
micro-batch). -/
def batchGrad (n bs : ℕ) (gs : List ℚ) : Option ℚ :=
  accumulate none (gs.map (fun g => lossScale n bs * g))

/-! ## The averaging coordinator `average` (LAPSGD.py lines 26-53)

One coordinator runs per rank.  Each cycle it reads its local
`minibatch_counter`, all-reduces `(m, -last_averaged_at)` with MAX across
ranks, and exits when the reduced progress reaches
`trainloaderlength * epochs`.  The `all_reduce` is a synchronous collective:
with two ranks the two loops advance in lockstep through paired reduction
calls, and both compute the same reduced values, so cycle `t` of a two-rank
execution is described by the two local readings `mA t` and `mB t`. -/

/-- The termination test of cycle `t` (line 42): the max-reduced progress
`max (mA t) (mB t)` has reached `trainloaderlength * epochs`.  Both ranks
compute the same value, so both exit at the first cycle satisfying this. -/
def coordDone (mA mB : ℕ → ℕ) (epochs spe t : ℕ) : Prop :=
  spe * epochs ≤ max (mA t) (mB t)

instance (mA mB : ℕ → ℕ) (epochs spe t : ℕ) :
    Decidable (coordDone mA mB epochs spe t) :=
  inferInstanceAs (Decidable (_ ≤ _))

/-- The first cycle `< fuel` whose termination test succeeds: the cycle at
which both coordinator loops break. -/
def exitCycle (mA mB : ℕ → ℕ) (epochs spe fuel : ℕ) : Option ℕ :=
  (List.range fuel).find? (fun t => decide (coordDone mA mB epochs spe t))

/-- The first cycle `< fuel` at which a single rank's local count has reached
the target: "this rank reaches the target at time T". -/
def firstReach (m : ℕ → ℕ) (epochs spe fuel : ℕ) : Option ℕ :=
  (List.range fuel).find? (fun t => decide (spe * epochs ≤ m t))

/-- The adaptive averaging interval (lines 46-47): `1` while
`maxminibatches / trainloaderlength < pre_post_epochs` (float division,
modelled in `ℚ`), else `averaging_freq`. -/
def avgFreq (maxm : ℚ) (spe warm : ℚ) (freq : ℤ) : ℤ :=
  if maxm / spe < warm then 1 else freq

/-! ## The `run` startup sequence (LAPSGD.py lines 193-237)

`run` sets the device, initialises the process group, seeds, builds the
model, creates the shared counters and barrier, spawns the worker processes,
and then runs `average` itself.  It contains no branch on the schedule
parameters (`epochs`, `trainloaderlength`, …): the action list below is what
it performs, unconditionally, for every configuration. -/

inductive StartupEv
  | initProcessGroup
  | buildModel
  | createSharedState
  | spawnWorkers
  | runCoordinator
  | configError
  deriving DecidableEq, Repr

/-- The sequence of startup actions `run` performs, as a function of the
schedule parameters.  The body of `run` is straight-line: no validation of
`epochs` or of the steps-per-epoch value guards any of these actions. -/
def runStartupTrace (_epochs _stepsPerEpoch : ℤ) : List StartupEv :=
  [StartupEv.initProcessGroup, StartupEv.buildModel, StartupEv.createSharedState,
   StartupEv.spawnWorkers, StartupEv.runCoordinator]

/-- Concrete rank-progress traces for the two-rank coordinator simulation:
rank A completes one local step per coordinator cycle, rank B one step every
two cycles. -/
def exRankA (t : ℕ) : ℕ := t

/-- See `exRankA`. -/
def exRankB (t : ℕ) : ℕ := t / 2

end LAPSGD

namespace LAPSGD

/-! ## Helper lemmas -/

theorem stepSlot_grad (cfg : OptCfg) (p : ℚ) (buf : Option ℚ) (g : ℚ) :
    (stepSlot cfg p buf (some g)).2 =
      some (if cfg.weight_decay ≠ 0 then g + cfg.weight_decay * p else g) := by
  simp only [stepSlot]
  split <;> rfl

theorem stepSlot_none (cfg : OptCfg) (p : ℚ) (buf : Option ℚ) :
    stepSlot cfg p buf none = ((p, buf), none) := rfl

theorem optStep_nil_left (cfg : OptCfg) (ps : List (ℚ × Option ℚ)) :
    optStep cfg ps [] = (ps, []) := by cases ps <;> rfl

theorem optStep_nil_cons (cfg : OptCfg) (g : Option ℚ) (gs : List (Option ℚ)) :
    optStep cfg [] (g :: gs) = ([], g :: gs) := rfl

theorem optStep_cons_cons (cfg : OptCfg) (s : ℚ × Option ℚ) (ps : List (ℚ × Option ℚ))
    (g : Option ℚ) (gs : List (Option ℚ)) :
    optStep cfg (s :: ps) (g :: gs) =
      ((stepSlot cfg s.1 s.2 g).1 :: (optStep cfg ps gs).1,
       (stepSlot cfg s.1 s.2 g).2 :: (optStep cfg ps gs).2) := rfl

theorem optStep_none_get (cfg : OptCfg) (ps : List (ℚ × Option ℚ))
    (gs : List (Option ℚ)) (i : ℕ) (h : gs.get? i = some none) :
    (optStep cfg ps gs).1.get? i = ps.get? i ∧
      (optStep cfg ps gs).2.get? i = some none := by
  induction ps generalizing gs i with
  | nil =>
    cases gs with
    | nil => simp at h
    | cons g gs => exact ⟨by simp [optStep_nil_cons], by rw [optStep_nil_cons]; exact h⟩
  | cons s ps ih =>
    cases gs with
    | nil => simp at h
    | cons g gs =>
      cases i with
      | zero =>
        simp only [List.get?] at h
        cases h
        exact ⟨by simp [optStep, stepSlot_none], by simp [optStep, stepSlot_none]⟩
      | succ i =>
        simp only [List.get?] at h ⊢
        simpa [optStep] using ih gs i h

theorem optStep_grad_get (cfg : OptCfg) (ps : List (ℚ × Option ℚ))
    (gs : List (Option ℚ)) (i : ℕ) (p : ℚ) (b : Option ℚ) (g : ℚ)
    (hp : ps.get? i = some (p, b)) (hg : gs.get? i = some (some g)) :
    (optStep cfg ps gs).2.get? i =
      some (some (if cfg.weight_decay ≠ 0 then g + cfg.weight_decay * p else g)) := by
  induction ps generalizing gs i with
  | nil => simp at hp
  | cons s ps ih =>
    cases gs with
    | nil => simp at hg
    | cons g' gs =>
      cases i with
      | zero =>
        simp only [List.get?] at hp hg
        cases hp; cases hg
        simp [optStep, stepSlot_grad]
      | succ i =>
        simp only [List.get?] at hp hg ⊢
        simpa [optStep] using ih gs i hp hg

theorem accumulate_some (a : ℚ) (l : List ℚ) :
    accumulate (some a) l = some (a + l.sum) := by
  induction l generalizing a with
  | nil => simp [accumulate]
  | cons g t ih =>
    rw [accumulate, ih, List.sum_cons]
    exact congrArg some (by ring)

theorem accumulate_sum (l : List ℚ) (h : l ≠ []) :
    accumulate none l = some l.sum := by
  cases l with
  | nil => exact absurd rfl h
  | cons g t => rw [accumulate, accumulate_some, List.sum_cons]

theorem countersStep_mb (thresh : ℤ) (s : Counters) :
    (countersStep thresh s).mb = s.mb + 1 := rfl

theorem countersStep_lta (thresh : ℤ) (s : Counters) :
    (countersStep thresh s).lta =
      if thresh ≤ s.mb - s.lta then s.mb else s.lta := by
  simp only [countersStep, workerPostAccum]
  by_cases h : thresh ≤ s.mb - s.lta <;> simp [h]

theorem countersStep_inv (thresh : ℤ) (s : Counters) (h : s.lta ≤ s.mb) :
    (countersStep thresh s).lta ≤ (countersStep thresh s).mb ∧
      s.lta ≤ (countersStep thresh s).lta := by
  rw [countersStep_mb, countersStep_lta]
  constructor
  · split <;> omega
  · split <;> omega

theorem countersTrace_inv (thresh : ℤ) (n : ℕ) :
    (countersTrace thresh n).lta ≤ (countersTrace thresh n).mb := by
  induction n with
  | zero => simp [countersTrace]
  | succ n ih =>
    rw [countersTrace, Function.iterate_succ_apply']
    exact (countersStep_inv thresh _ ih).1

theorem countersTrace_mb_mono (thresh : ℤ) : Monotone fun n => (countersTrace thresh n).mb := by
  apply monotone_nat_of_le_succ
  intro n
  simp only [countersTrace]
  rw [Function.iterate_succ_apply', countersStep_mb]
  omega

theorem countersTrace_lta_mono (thresh : ℤ) : Monotone fun n => (countersTrace thresh n).lta := by
  apply monotone_nat_of_le_succ
  intro n
  simp only [countersTrace]
  rw [Function.iterate_succ_apply']
  exact (countersStep_inv thresh _ (countersTrace_inv thresh n)).2

theorem runClaims_eq_range' (sched : List ℕ) (c : ℕ) :
    runClaims sched c = List.range' c sched.length := by
  induction sched generalizing c with
  | nil => rfl
  | cons w sched ih => rw [runClaims, ih, List.length_cons, List.range'_succ]

/-! ## Claim theorems -/

/-- C2: per parameter with a gradient, `opt.step` applies weight decay, then
the momentum-buffer update (first use `b ← g`, later `b ← momentum*b + g`,
direction `g + momentum*b` under Nesterov and `b` otherwise), then
`p ← p - lr * direction` with the externally set `lr`; and on the concrete
one-parameter run (`p₀ = 10`, constant gradient `2`, `lr = 1/10`,
`weight_decay = 0`, `momentum = 9/10`, non-Nesterov) step 1 yields buffer `2`
and `p = 49/5 = 9.8`, step 2 yields buffer `19/5 = 3.8` and
`p = 471/50 = 9.42`. -/
theorem opt_step_update_rule :
    (∀ (cfg : OptCfg) (p g : ℚ) (buf : Option ℚ),
      (stepSlot cfg p buf (some g)).1.1 = p - cfg.lr * specDirection cfg p g buf ∧
      (stepSlot cfg p buf (some g)).1.2 = specBuffer cfg p g buf) ∧
    optStep ⟨1/10, 9/10, 0, false⟩ [(10, none)] [some 2]
      = ([(49/5, some 2)], [some 2]) ∧
    optStep ⟨1/10, 9/10, 0, false⟩ [(49/5, some 2)] [some 2]
      = ([(471/50, some (19/5))], [some 2]) := by
  refine ⟨fun cfg p g buf => ?_,
    by norm_num [optStep_cons_cons, optStep_nil_left, stepSlot],
    by norm_num [optStep_cons_cons, optStep_nil_left, stepSlot]⟩
  simp only [stepSlot, specDirection, specBuffer]
  split_ifs <;> cases buf <;> simp

/-- C9: a parameter slot whose gradient entry is `None` is skipped by
`opt.step`: its value and (absent or present) momentum buffer are unchanged,
and the caller's `None` entry stays `None`. -/
theorem opt_step_skips_none (cfg : OptCfg) (ps : List (ℚ × Option ℚ))
    (gs : List (Option ℚ)) (i : ℕ) (h : gs.get? i = some none) :
    (optStep cfg ps gs).1.get? i = ps.get? i ∧
      (optStep cfg ps gs).2.get? i = some none :=
  optStep_none_get cfg ps gs i h

theorem opt_step_skips_none_witness :
    ((([some 3, none] : List (Option ℚ)).get? 1 = some none) ∧
      (optStep ⟨1, 1/2, 1/3, true⟩ [(5, none), (7, some 4)] [some 3, none]).1.get? 1
        = some (7, some 4) ∧
      (optStep ⟨1, 1/2, 1/3, true⟩ [(5, none), (7, some 4)] [some 3, none]).2.get? 1
        = some none) := by
  have h := opt_step_skips_none ⟨1, 1/2, 1/3, true⟩ [(5, none), (7, some 4)]
    [some 3, none] 1 rfl
  exact ⟨rfl, by rw [h.1]; rfl, h.2⟩

/-- C10: with `weight_decay ≠ 0` the caller's gradient tensors are mutated in
place: after `opt.step`, the gradient entry of a slot holding parameter `p`
and gradient `g` reads `g + weight_decay * p`. -/
theorem opt_step_mutates_caller_grad (cfg : OptCfg) (ps : List (ℚ × Option ℚ))
    (gs : List (Option ℚ)) (i : ℕ) (p : ℚ) (b : Option ℚ) (g : ℚ)
    (hwd : cfg.weight_decay ≠ 0) (hp : ps.get? i = some (p, b))
    (hg : gs.get? i = some (some g)) :
    (optStep cfg ps gs).2.get? i = some (some (g + cfg.weight_decay * p)) := by
  rw [optStep_grad_get cfg ps gs i p b g hp hg, if_pos hwd]

theorem opt_step_mutates_caller_grad_witness :
    (optStep ⟨1, 0, 1/2, false⟩ [(10, none)] [some 4]).2.get? 0
      = some (some (4 + 1/2 * 10)) :=
  opt_step_mutates_caller_grad ⟨1, 0, 1/2, false⟩ [(10, none)] [some 4] 0 10 none 4
    (by norm_num) rfl rfl

/-- C3: the post-accumulation section of `train_epoch` marks the step for
evaluation and sets `last_tested_at := minibatches` exactly when
`minibatches - last_tested_at ≥ test_freq * trainloaderlength`, increments
`minibatch_counter` by one, and in its event trace the read comes first, the
`last_tested_at` write (when it happens) precedes the increment, and the
increment precedes both the scheduler call and the optimizer call. -/
theorem worker_post_accum_order (tf spe : ℤ) (s : Counters) :
    ((workerPostAccum (tf * spe) s).2.1 = true ↔ tf * spe ≤ s.mb - s.lta) ∧
    (workerPostAccum (tf * spe) s).1.lta
      = (if tf * spe ≤ s.mb - s.lta then s.mb else s.lta) ∧
    (workerPostAccum (tf * spe) s).1.mb = s.mb + 1 ∧
    ((workerPostAccum (tf * spe) s).2.2.indexOf WEv.readMB = 0 ∧
      (workerPostAccum (tf * spe) s).2.2.indexOf WEv.incMB
        < (workerPostAccum (tf * spe) s).2.2.indexOf WEv.schedStep ∧
      (workerPostAccum (tf * spe) s).2.2.indexOf WEv.schedStep
        < (workerPostAccum (tf * spe) s).2.2.indexOf WEv.optStep) ∧
    (if (workerPostAccum (tf * spe) s).2.1
      then (workerPostAccum (tf * spe) s).2.2
          = [WEv.readMB, WEv.setLTA, WEv.incMB, WEv.schedStep, WEv.optStep] ∧
        (workerPostAccum (tf * spe) s).2.2.indexOf WEv.setLTA
          < (workerPostAccum (tf * spe) s).2.2.indexOf WEv.incMB
      else (workerPostAccum (tf * spe) s).2.2
          = [WEv.readMB, WEv.incMB, WEv.schedStep, WEv.optStep]) := by
  by_cases h : tf * spe ≤ s.mb - s.lta <;> simp [workerPostAccum, h]

theorem worker_post_accum_order_witness :
    ((workerPostAccum ((1 : ℤ) * 1) ⟨5, 0⟩).2.1 = true ↔ (1 : ℤ) * 1 ≤ 5 - 0) ∧
    (workerPostAccum ((1 : ℤ) * 1) ⟨5, 0⟩).1.lta
      = (if (1 : ℤ) * 1 ≤ 5 - 0 then 5 else 0) ∧
    (workerPostAccum ((1 : ℤ) * 1) ⟨5, 0⟩).1.mb = 5 + 1 ∧
    ((workerPostAccum ((1 : ℤ) * 1) ⟨5, 0⟩).2.2.indexOf WEv.readMB = 0 ∧
      (workerPostAccum ((1 : ℤ) * 1) ⟨5, 0⟩).2.2.indexOf WEv.incMB
        < (workerPostAccum ((1 : ℤ) * 1) ⟨5, 0⟩).2.2.indexOf WEv.schedStep ∧
      (workerPostAccum ((1 : ℤ) * 1) ⟨5, 0⟩).2.2.indexOf WEv.schedStep
        < (workerPostAccum ((1 : ℤ) * 1) ⟨5, 0⟩).2.2.indexOf WEv.optStep) ∧
    (if (workerPostAccum ((1 : ℤ) * 1) ⟨5, 0⟩).2.1
      then (workerPostAccum ((1 : ℤ) * 1) ⟨5, 0⟩).2.2
          = [WEv.readMB, WEv.setLTA, WEv.incMB, WEv.schedStep, WEv.optStep] ∧
        (workerPostAccum ((1 : ℤ) * 1) ⟨5, 0⟩).2.2.indexOf WEv.setLTA
          < (workerPostAccum ((1 : ℤ) * 1) ⟨5, 0⟩).2.2.indexOf WEv.incMB
      else (workerPostAccum ((1 : ℤ) * 1) ⟨5, 0⟩).2.2
          = [WEv.readMB, WEv.incMB, WEv.schedStep, WEv.optStep]) :=
  worker_post_accum_order 1 1 ⟨5, 0⟩

/-- C4: from the initial state (`mp.Value('i', 0)` for both cells), along any
execution — any number of completed atomic worker steps, in any interleaving —
`minibatches` is non-decreasing, `last_tested_at` is non-decreasing, and at
every observation `last_tested_at ≤ minibatches`. -/
theorem counters_monotone_invariant (thresh : ℤ) (m n : ℕ) (h : m ≤ n) :
    (countersTrace thresh m).mb ≤ (countersTrace thresh n).mb ∧
    (countersTrace thresh m).lta ≤ (countersTrace thresh n).lta ∧
    (countersTrace thresh n).lta ≤ (countersTrace thresh n).mb :=
  ⟨countersTrace_mb_mono thresh h, countersTrace_lta_mono thresh h,
    countersTrace_inv thresh n⟩

theorem counters_monotone_invariant_witness :
    (countersTrace 2 3).mb ≤ (countersTrace 2 5).mb ∧
    (countersTrace 2 3).lta ≤ (countersTrace 2 5).lta ∧
    (countersTrace 2 5).lta ≤ (countersTrace 2 5).mb :=
  counters_monotone_invariant 2 3 5 (by decide)

/-- C5: the averaging interval of a coordinator cycle is `1` while
`global_max_m / steps_per_epoch < warmup_epochs` and `averaging_freq`
thereafter; with `warmup_epochs = 1`, `steps_per_epoch = 100`,
`averaging_freq = 5`, it is `1` for global progress `< 100` steps and `5`
from `100` steps on. -/
theorem avg_freq_policy (maxm spe warm : ℚ) (freq : ℤ) (m : ℕ) :
    (maxm / spe < warm → avgFreq maxm spe warm freq = 1) ∧
    (warm ≤ maxm / spe → avgFreq maxm spe warm freq = freq) ∧
    (m < 100 → avgFreq m 100 1 5 = 1) ∧
    (100 ≤ m → avgFreq m 100 1 5 = 5) := by
  refine ⟨fun h => if_pos h, fun h => if_neg (not_lt.2 h), fun h => if_pos ?_,
    fun h => if_neg (not_lt.2 ?_)⟩
  · rw [div_lt_one (by norm_num : (0 : ℚ) < 100)]
    exact_mod_cast h
  · rw [le_div_iff₀ (by norm_num : (0 : ℚ) < 100), one_mul]
    exact_mod_cast h

theorem avg_freq_policy_witness :
    avgFreq 99 100 1 5 = 1 ∧ avgFreq 100 100 1 5 = 5 :=
  ⟨(avg_freq_policy 99 100 1 5 99).2.2.1 (by norm_num),
    (avg_freq_policy 100 100 1 5 100).2.2.2 (by norm_num)⟩

/-- C7: for any schedule — any interleaving of the workers' atomic
`epoch_counter` fetch-and-increment blocks — the `E` claimed epoch indices
are exactly `0, 1, …, E-1` in execution order: distinct, no gaps, and each
index below `E` claimed by exactly one call. -/
theorem epoch_claims_unique (sched : List ℕ) :
    runClaims sched 0 = List.range sched.length ∧
    (runClaims sched 0).Nodup ∧
    ∀ i : ℕ, (runClaims sched 0).count i = if i < sched.length then 1 else 0 := by
  have hr : runClaims sched 0 = List.range sched.length := by
    rw [runClaims_eq_range', List.range_eq_range']
  refine ⟨hr, hr ▸ List.nodup_range _, fun i => ?_⟩
  rw [hr]
  by_cases h : i < sched.length
  · rw [if_pos h]
    exact List.count_eq_one_of_mem (List.nodup_range _) (List.mem_range.2 h)
  · rw [if_neg h]
    exact List.count_eq_zero_of_not_mem (fun hm => h (List.mem_range.1 hm))

/-- C6 counterexample: a batch of 64 inputs with micro-batch size 32 divides
evenly into 2 micro-batches, so the claim says the loss is left undivided;
the code's guard is `len(inputs) != train_processing_bs`, which fires and
divides each loss by 2 — with two unit micro-batch gradients the accumulated
gradient is 1 under the code and 2 under the claim's rule. -/
theorem loss_scale_counterexample :
    (32 ∣ 64) ∧
    specLossScale 64 32 = 1 ∧
    lossScale 64 32 = 1 / 2 ∧
    batchGrad 64 32 [1, 1] = some 1 ∧
    accumulate none (([1, 1] : List ℚ).map (fun g => specLossScale 64 32 * g))
      = some 2 := by
  refine ⟨by decide, ?_, ?_, ?_, ?_⟩ <;>
    norm_num [specLossScale, lossScale, microBatchCount, batchGrad, accumulate]

/-- C6 (amended): for every batch, the gradient handed to the optimizer step
is the sum of the per-micro-batch gradients, where each micro-batch loss
(hence its gradient) is divided by the number of micro-batches
`ceil(len(inputs) / bs)` exactly when the batch size differs from the
micro-batch size (`len(inputs) != train_processing_bs`) — not only when the
batch does not divide evenly. -/
theorem batch_grad_accumulation (n bs : ℕ) (gs : List ℚ) (h : gs ≠ []) :
    batchGrad n bs gs = some ((gs.map (fun g => lossScale n bs * g)).sum) ∧
    (n ≠ bs → lossScale n bs = 1 / (microBatchCount n bs : ℚ)) ∧
    (n = bs → lossScale n bs = 1) := by
  refine ⟨accumulate_sum _ (by simpa using h), fun hne => if_pos hne,
    fun he => if_neg (by simp [he])⟩

theorem batch_grad_accumulation_witness :
    batchGrad 64 32 [2, 3]
      = some ((([2, 3] : List ℚ).map (fun g => lossScale 64 32 * g)).sum) ∧
    ((64 : ℕ) ≠ 32 → lossScale 64 32 = 1 / (microBatchCount 64 32 : ℚ)) ∧
    ((64 : ℕ) = 32 → lossScale 64 32 = 1) :=
  batch_grad_accumulation 64 32 [2, 3] (by decide)

/-- C1 counterexample: with `epochs = 2`, `steps_per_epoch = 1` (target 2),
rank A progressing one step per cycle and rank B one step every two cycles,
A first reaches the target at cycle 2 and B only at cycle 4; both
coordinators' shared exit test first succeeds at cycle 2, i.e. two reduction
cycles *before* the later rank reaches the target — refuting "within one
reduction cycle of the later rank reaching the target, and never before". -/
theorem coordinator_exit_counterexample :
    exitCycle exRankA exRankB 2 1 10 = some 2 ∧
    firstReach exRankA 2 1 10 = some 2 ∧
    firstReach exRankB 2 1 10 = some 4 ∧
    exRankB 2 = 1 ∧ (2 : ℕ) < 4 := by
  refine ⟨?_, ?_, ?_, rfl, by decide⟩ <;> rfl

/-- C1 (amended): in a two-rank execution where rank A's local count first
reaches `epochs * steps_per_epoch` at reduction cycle `tA` and rank B's at
cycle `tB`, both coordinators exit at the reduction cycle at which the
*earlier* of the two ranks reaches the target — the exit test, which
compares the max-reduced global progress against `epochs * steps_per_epoch`,
first succeeds at cycle `min tA tB` and at no cycle before it. -/
theorem coordinator_exit_at_earlier (mA mB : ℕ → ℕ) (epochs spe tA tB : ℕ)
    (hA1 : spe * epochs ≤ mA tA) (hA2 : ∀ t, t < tA → mA t < spe * epochs)
    (hB1 : spe * epochs ≤ mB tB) (hB2 : ∀ t, t < tB → mB t < spe * epochs) :
    coordDone mA mB epochs spe (min tA tB) ∧
    ∀ t, t < min tA tB → ¬ coordDone mA mB epochs spe t := by
  constructor
  · rcases le_total tA tB with hle | hle
    · rw [min_eq_left hle]
      exact le_trans hA1 (le_max_left _ _)
    · rw [min_eq_right hle]
      exact le_trans hB1 (le_max_right _ _)
  · intro t ht
    exact not_le.2 (max_lt (hA2 t (lt_of_lt_of_le ht (min_le_left _ _)))
      (hB2 t (lt_of_lt_of_le ht (min_le_right _ _))))

theorem coordinator_exit_at_earlier_witness :
    coordDone exRankA exRankB 2 1 (min 2 4) ∧
    ¬ coordDone exRankA exRankB 2 1 1 := by
  have h := coordinator_exit_at_earlier exRankA exRankB 2 1 2 4
    (by decide) (by decide) (by decide) (by decide)
  exact ⟨h.1, h.2 1 (by decide)⟩

/-- C8 counterexample: with an invalid schedule (negative `epochs`, zero
steps-per-epoch), `run` still performs its whole startup sequence — in
particular it spawns the worker processes — and raises no configuration
error: the run does not fail fast. -/
theorem run_no_failfast_counterexample :
    StartupEv.spawnWorkers ∈ runStartupTrace (-1) 0 ∧
    StartupEv.configError ∉ runStartupTrace (-1) 0 := by decide

/-- C8 (amended): `run` performs no schedule-parameter validation at all: for
every configuration — valid or not — its startup sequence is the same
straight-line action list, contains no configuration-error event, and spawns
the worker processes. -/
theorem run_startup_unvalidated (epochs spe : ℤ) :
    runStartupTrace epochs spe
      = [StartupEv.initProcessGroup, StartupEv.buildModel,
         StartupEv.createSharedState, StartupEv.spawnWorkers,
         StartupEv.runCoordinator] ∧
    StartupEv.configError ∉ runStartupTrace epochs spe ∧
    StartupEv.spawnWorkers ∈ runStartupTrace epochs spe :=
  ⟨rfl, by simp [runStartupTrace], by simp [runStartupTrace]⟩

theorem run_startup_unvalidated_witness :
    runStartupTrace (-3) 0
      = [StartupEv.initProcessGroup, StartupEv.buildModel,
         StartupEv.createSharedState, StartupEv.spawnWorkers,
         StartupEv.runCoordinator] ∧
    StartupEv.configError ∉ runStartupTrace (-3) 0 ∧
    StartupEv.spawnWorkers ∈ runStartupTrace (-3) 0 :=
  run_startup_unvalidated (-3) 0

end LAPSGD
